import Mathlib

/-!
Shallow embedding of the indexing-resolution engine of
`src/pandas/core/indexing.py`: label sets with inferred kinds, scalar key
resolution for the legacy-mixed (`ix`), label-only (`loc`) and position-only
(`iloc`) accessor policies, slice classification, value alignment for series
assignment, axis enlargement on missing write keys, and cross-product
conversion of list indexers.  Machine integers are modelled as `Int`/`Nat`;
`NaN` cells as `none : Option Int`; fallible paths return explicit error
constructors.
-/

namespace PandasIndexing

/-- A label on one axis.  The source's labels are arbitrary Python objects;
we model the kinds the indexing code distinguishes: integers, strings, and
other (non-string, non-numeric) objects.  Floating labels are outside the
modelled universe. -/
inductive Label
  | int (n : Int)
  | str (s : String)
  | other (tag : String)
deriving DecidableEq, Repr

def Label.isInt : Label → Bool
  | .int _ => true
  | _ => false

def Label.isStr : Label → Bool
  | .str _ => true
  | _ => false

/-- Inferred kind of a label set, as returned by `Index.inferred_type`
(`lib.infer_dtype`): all integers → `integer`, all strings → `string`,
integers mixed with anything else → `mixed-integer`, otherwise `mixed`. -/
inductive IKind
  | integer
  | string
  | mixedInteger
  | mixed
  | empty
deriving DecidableEq, Repr

def inferredType (ls : List Label) : IKind :=
  if ls.isEmpty then .empty
  else if ls.all Label.isInt then .integer
  else if ls.all Label.isStr then .string
  else if ls.any Label.isInt then .mixedInteger
  else .mixed

/-- The source's test `'mixed' in ltype` (substring test on the inferred
type string) holds for `mixed` and `mixed-integer`. -/
def kindHasMixed : IKind → Bool
  | .mixed => true
  | .mixedInteger => true
  | _ => false

/-- Models `_is_integer_index(index)`: `index.inferred_type == 'integer'`. -/
def isIntegerIndex (ls : List Label) : Bool :=
  inferredType ls = IKind.integer

/-- Models `labels.get_loc(key)` for a unique (first-match) label set:
the position of the label, or `none` (a `KeyError` in the source). -/
def getLoc (ls : List Label) (k : Label) : Option Nat :=
  match ls with
  | [] => none
  | x :: xs => if x = k then some 0 else (getLoc xs k).map (· + 1)

/-- A data cell; `none` models `NaN`. -/
abbrev Cell := Option Int

/-- A 1-D labeled vector (pandas `Series`): an axis of labels and the cell
values at each position. -/
structure Series where
  index : List Label
  values : List Cell
deriving DecidableEq, Repr

/-- Result of a scalar read on one axis. -/
inductive IxRead
  | ok (c : Cell)
  | keyNotFound
  | posOutOfRange
deriving DecidableEq, Repr

/-- Models `_NDFrameIndexer._get_loc` → `obj._ixs(key)`: positional access
with numpy semantics (negative positions wrap by the axis length;
out-of-range is an error). -/
def series_get_loc_pos (s : Series) (n : Int) : IxRead :=
  let len : Int := s.values.length
  let i := if n < 0 then n + len else n
  if 0 ≤ i ∧ i < len then .ok (s.values.getD i.toNat none) else .posOutOfRange

/-- Models `_NDFrameIndexer._get_label` → `obj._xs(label)`: label lookup,
`KeyError` when the label is absent. -/
def series_get_label (s : Series) (k : Label) : IxRead :=
  match getLoc s.index k with
  | some i => .ok (s.values.getD i none)
  | none => .keyNotFound

/-- Models the scalar branch of `_NDFrameIndexer._getitem_axis` (the
legacy-mixed `ix` read policy) on a non-hierarchical axis: an integer key is
positional iff the axis is not integer-labeled (`not _is_integer_index`),
otherwise — and for every non-integer key — label lookup via `_get_label`. -/
def getitem_axis_scalar (s : Series) (key : Label) : IxRead :=
  match key with
  | .int n =>
      if !(isIntegerIndex s.index) then series_get_loc_pos s n
      else series_get_label s (.int n)
  | k => series_get_label s k

/-- Resolution mode of a call (`is_setter` in the source). -/
inductive Mode
  | read
  | write
deriving DecidableEq, Repr

/-- Outcome of `_NDFrameIndexer._convert_to_indexer` for a scalar key:
an integer passed through as a raw position, a resolved label position, the
missing-key dict `{'key': obj}`, or a raised `KeyError`. -/
inductive Indexer
  | pos (n : Int)
  | loc (i : Nat)
  | missing (k : Label)
  | keyError
deriving DecidableEq, Repr

/-- Models `_NDFrameIndexer._convert_to_indexer` on a non-list scalar key:
an integer key on a non-integer axis is returned as a raw position;
otherwise `labels.get_loc(obj)` is attempted, and on `KeyError` the setter
mode returns the missing-key dict `{'key': obj}` while the read mode
re-raises. -/
def convert_to_indexer_scalar (labels : List Label) (key : Label)
    (is_setter : Bool) : Indexer :=
  if key.isInt && !(isIntegerIndex labels) then
    match key with
    | .int n => .pos n
    | _ => .keyError
  else
    match getLoc labels key with
    | some i => .loc i
    | none => if is_setter then .missing key else .keyError

/-- Models `_convert_missing_indexer`: a dict indexer is unpacked to its
carried key together with `True` (enlargement request); every other
indexer is returned with `False`. -/
def convert_missing_indexer : Indexer → Indexer × Bool
  | .missing k => (.missing k, true)
  | ix => (ix, false)

/-- Models `_safe_append_to_index(index, key)`: `index.insert(len(index),
key)`, i.e. append at the end (the fallback recreation via concatenation
appends at the end as well). -/
def safe_append_to_index (index : List Label) (key : Label) : List Label :=
  index ++ [key]

/-- Positional write into a cell list with numpy semantics (negative
positions wrap); out-of-range leaves the list unchanged (the storage
collaborator's error case, not reached on validated indexers). -/
def set_pos (values : List Cell) (n : Int) (v : Cell) : List Cell :=
  let len : Int := values.length
  let i := if n < 0 then n + len else n
  if 0 ≤ i ∧ i < len then values.set i.toNat v else values

/-- Models the 1-D (`ndim == 1`) path of
`_NDFrameIndexer._setitem_with_indexer` for a scalar key under the `ix`
policy: the key is converted with `is_setter=True`; a missing key appends
the new label (`_safe_append_to_index`, or `Index([indexer])` on an empty
axis) and concatenates the new value at the end; a resolved label position
or raw integer position writes in place through the storage `setitem`. -/
def setitem_series (s : Series) (key : Label) (v : Int) : Series :=
  match convert_to_indexer_scalar s.index key true with
  | .missing k =>
      let new_index :=
        if s.index.length = 0 then [k] else safe_append_to_index s.index k
      ⟨new_index, s.values ++ [some v]⟩
  | .loc i => ⟨s.index, s.values.set i (some v)⟩
  | .pos n => ⟨s.index, set_pos s.values n (some v)⟩
  | .keyError => s

/-- Errors raised by the embedded paths. -/
inductive Err
  | cannotEnlarge
  | incompatibleSeries
  | outOfBoundsSliceStart
  | outOfBoundsSliceEnd
deriving DecidableEq, Repr

/-- Models the scalar-integer case of
`_NDFrameIndexer._has_valid_positional_setitem_indexer` for one axis:
`if i >= len(ax): raise IndexError("... cannot enlarge its target
object")`. -/
def has_valid_positional_setitem_scalar (axLen : Nat) (i : Int) : Bool :=
  !(i ≥ (axLen : Int))

/-- Models a scalar write through the position-only (`iloc`) policy on a
1-D object: `_iLocIndexer._has_valid_setitem_indexer` runs
`_has_valid_positional_setitem_indexer` first (raising `cannot enlarge`
before anything is touched), then the storage `setitem` writes
positionally.  The returned pair is the observable state after the call
together with the raised error, if any. -/
def iloc_setitem_scalar (s : Series) (key : Int) (v : Int) :
    Series × Option Err :=
  if !(has_valid_positional_setitem_scalar s.index.length key) then
    (s, some .cannotEnlarge)
  else
    (⟨s.index, set_pos s.values key (some v)⟩, none)

/-- A 2-D labeled table (pandas `DataFrame`): axis 0 is `index` (rows),
axis 1 is `columns` (the info axis), `data` is the list of rows. -/
structure Frame where
  index : List Label
  columns : List Label
  data : List (List Cell)
deriving DecidableEq, Repr

def Frame.cell (f : Frame) (i j : Nat) : Cell :=
  (f.data.getD i []).getD j none

/-- One resolved component of a tuple indexer, as `_align_series`
classifies it: a scalar position, a position list (`com._is_sequence`), or
the null slice `slice(None, None)`. -/
inductive IdxComp
  | scalar (n : Nat)
  | list (ns : List Nat)
  | nullSlice
deriving DecidableEq, Repr

def IdxComp.isNull : IdxComp → Bool
  | .nullSlice => true
  | _ => false

def IdxComp.isSeqOrSlice : IdxComp → Bool
  | .scalar _ => false
  | _ => true

/-- Models `ax[idx]` for a resolved indexer component: the labels of the
axis selected by the component. -/
def axTake (ax : List Label) : IdxComp → List Label
  | .nullSlice => ax
  | .list ns => ns.map (fun i => ax.getD i (.int 0))
  | .scalar n => [ax.getD n (.int 0)]

/-- Models `ser.reindex(new_ix).values`: a left join of the target labels
onto the series — each target label takes the series value at its (first)
matching series label, and `NaN` (`none`) when the label is absent from
the series.  Series entries whose labels are not in the target do not
appear. -/
def reindexSer (target serIdx : List Label) (serVals : List Cell) :
    List Cell :=
  target.map (fun l =>
    match getLoc serIdx l with
    | some i => serVals.getD i none
    | none => none)

/-- Models the alignment of one indexer component inside
`_align_series`'s loop: `new_ix = ax[idx]`, then either the series values
unchanged (as a copy) when `ser.index.equals(new_ix)`, or a reindex onto
`new_ix`. -/
def alignToAxis (ax : List Label) (c : IdxComp) (serIdx : List Label)
    (serVals : List Cell) : List Cell :=
  let new_ix := axTake ax c
  if serIdx = new_ix then serVals else reindexSer new_ix serIdx serVals

/-- Models `_NDFrameIndexer._align_series` for a 2-axis object
(`is_frame`) and a two-component tuple indexer, the loop unrolled:
`aligners` marks the non-null-slice components; `single_aligner` holds
when exactly one component is non-null and (frame case) it is component 0;
the first sequence/slice component aligns the series to the labels it
selects on its axis; a scalar component under `single_aligner` aligns to
the column axis (`self.obj.axes[1]`); otherwise the trailing
`ValueError('Incompatible indexer with Series')` is raised (`none`). -/
def align_series_frame (f : Frame) (c0 c1 : IdxComp) (serIdx : List Label)
    (serVals : List Cell) : Option (List Cell) :=
  let a0 := !c0.isNull
  let a1 := !c1.isNull
  let single_aligner := ((cond a0 1 0) + (cond a1 1 0) == 1) && a0
  if c0.isSeqOrSlice then
    if single_aligner && c0.isNull then
      -- continue to component 1
      if c1.isSeqOrSlice then
        if single_aligner && c1.isNull then none
        else some (alignToAxis f.columns c1 serIdx serVals)
      else if single_aligner then
        some (alignToAxis f.columns .nullSlice serIdx serVals)
      else none
    else some (alignToAxis f.index c0 serIdx serVals)
  else if single_aligner then
    -- reindex along the index: ax = self.obj.axes[1]
    some (alignToAxis f.columns .nullSlice serIdx serVals)
  else
    if c1.isSeqOrSlice then
      if single_aligner && c1.isNull then none
      else some (alignToAxis f.columns c1 serIdx serVals)
    else if single_aligner then
      some (alignToAxis f.columns .nullSlice serIdx serVals)
    else none

/-- Models `self.obj._data = self.obj.reindex_axis(labels, 0)._data` after
`_safe_append_to_index`: axis 0 gains the new label at the end and the new
row is filled with `NaN`. -/
def enlarge_axis0 (f : Frame) (k : Label) : Frame :=
  { index := safe_append_to_index f.index k
    columns := f.columns
    data := f.data ++ [List.replicate f.columns.length none] }

def set_cell (f : Frame) (i j : Nat) (v : Cell) : Frame :=
  { f with data := f.data.set i ((f.data.getD i []).set j v) }

/-- A per-axis component of a converted setter indexer: a resolved
position or the missing-key dict. -/
inductive FIndexer
  | pos (i : Nat)
  | missing (k : Label)
deriving DecidableEq, Repr

/-- A right-hand-side value of an assignment: an unlabeled scalar or a
labeled 1-D series. -/
inductive SValue
  | scalar (v : Int)
  | series (serIdx : List Label) (serVals : List Cell)
deriving DecidableEq, Repr

/-- Models `_NDFrameIndexer._setitem_with_indexer` on a 2-D homogeneous
(non-mixed-type, non-hierarchical) object for a tuple indexer whose axis-0
component may be a missing key and whose axis-1 component is a resolved
scalar column position.  Following the source's order: first the missing
axis-0 component reindexes the axis in place (`_safe_append_to_index`,
then `reindex_axis`, then `labels.get_loc(key)`); then the non-split path
runs `_maybe_convert_ix` (identity on scalars), aligns a series value via
`_align_series`, and writes through the storage `setitem`.  The pair
returned is the observable state after the call and the raised error, if
any — a raise after the reindex leaves the enlarged state behind. -/
def setitem_frame_tuple (f : Frame) (ix0 : FIndexer) (j : Nat)
    (value : SValue) : Frame × Option Err :=
  let step1 : Frame × Nat :=
    match ix0 with
    | .pos i => (f, i)
    | .missing k =>
        let f2 := enlarge_axis0 f k
        (f2, (getLoc f2.index k).getD 0)
  let f1 := step1.1
  let i := step1.2
  match value with
  | .scalar v => (set_cell f1 i j (some v), none)
  | .series serIdx serVals =>
      match align_series_frame f1 (.scalar i) (.scalar j) serIdx serVals with
      | some cells => (set_cell f1 i j (cells.getD 0 none), none)
      | none => (f1, some .incompatibleSeries)

/-- Models `_check_slice_bounds(slobj, values)` from the source: a start
bound outside `[-l, l-1]` or a stop bound outside `[-l-1, l]` raises an
out-of-bounds `IndexError`; bound checks run start first, then stop. -/
def check_slice_bounds (l : Nat) (start stop : Option Int) : Option Err :=
  let startBad := match start with
    | some st => st < -(l : Int) || st > (l : Int) - 1
    | none => false
  let stopBad := match stop with
    | some sp => sp < -(l : Int) - 1 || sp > (l : Int)
    | none => false
  if startBad then some .outOfBoundsSliceStart
  else if stopBad then some .outOfBoundsSliceEnd
  else none

/-- Python slice-bound normalization for step 1: negative bounds are
offset by the length, then clamped into `[0, l]`. -/
def py_slice_bound (l : Nat) (b : Int) : Nat :=
  ((if b < 0 then b + l else b).toNat).min l

/-- Models the storage positional take of a step-1 slice (Python slice
semantics, exclusive stop): the selected positions. -/
def take_slice (l : Nat) (s e : Int) : List Nat :=
  let st := py_slice_bound l s
  let sp := py_slice_bound l e
  List.range' st (sp - st)

/-- Models `_iLocIndexer._get_slice_axis` for a step-1 slice on an axis of
length `l`.  The method calls `self._slice(slice_obj, axis,
raise_on_error=True)`; the storage slice (modelled from the spec's storage
collaborator together with this module's `_check_slice_bounds`, which the
storage invokes when `raise_on_error` is set) first bound-checks the slice
and then takes positions with Python slice semantics.  Absent bounds
default to the full axis. -/
def iloc_get_slice_axis (l : Nat) (s e : Option Int) :
    Except Err (List Nat) :=
  match check_slice_bounds l s e with
  | some err => .error err
  | none => .ok (take_slice l (s.getD 0) (e.getD l))

/-- Models `_is_index_slice(obj)` over the modelled (float-free) label
universe: not both bounds `None`, and every present bound an integer. -/
def is_index_slice (start stop : Option Label) : Bool :=
  let crit : Option Label → Bool := fun v =>
    match v with
    | none => true
    | some k => k.isInt
  !(start = none && stop = none) && (crit start && crit stop)

/-- Tests whether a slice bound resolves as a label: absent bounds pass,
present bounds must satisfy `labels.get_loc`.  This is the last-ditch
lookup of `_convert_to_indexer` / `_get_slice_axis`. -/
def boundFound (ls : List Label) (b : Option Label) : Bool :=
  match b with
  | none => true
  | some k => (getLoc ls k).isSome

/-- Classified outcome of resolving a slice key: the raw slice kept as
positions, or a label slice handed to `labels.slice_indexer`. -/
inductive SliceResolution
  | positional (start stop : Option Label)
  | labelBased (start stop : Option Label)
deriving DecidableEq, Repr

/-- Models the slice branch of `_NDFrameIndexer._convert_to_indexer` (the
same classification appears in `_NDFrameIndexer._get_slice_axis`) on a
non-hierarchical axis in the float-free universe: `position_slice` holds
when the bounds are integer-valued and the axis kind is not `integer`;
the last-ditch mixed-kind tie-break attempts `labels.get_loc` on each
present bound and forces label semantics when every lookup succeeds, a
`KeyError` being swallowed (kinds `mixed` / `mixed-integer`; the
re-raising `mixed-integer-float` kind has no inhabitant here); the raw
slice is kept for a null or position slice, otherwise
`labels.slice_indexer(start, stop, step)` resolves the label slice. -/
def convert_slice (ls : List Label) (start stop : Option Label) :
    SliceResolution :=
  let ltype := inferredType ls
  let int_slice := is_index_slice start stop
  let null_slice := start = none && stop = none
  let position_slice := int_slice && !(ltype = IKind.integer : Bool)
  let position_slice :=
    if position_slice && kindHasMixed ltype then
      if boundFound ls start && boundFound ls stop then false
      else position_slice
    else position_slice
  if null_slice || position_slice then .positional start stop
  else .labelBased start stop

/-- Models `DataFrame.get_value(*key)` as tried first by
`_NDFrameIndexer.__getitem__` on a tuple key: a label lookup on both axes,
failing (and falling through) when either label is absent. -/
def frame_get_value (f : Frame) (k0 k1 : Label) : Option Cell :=
  match getLoc f.index k0, getLoc f.columns k1 with
  | some i, some j => some (f.cell i j)
  | _, _ => none

/-- The row of a frame at a position, as a 1-D series over the column
labels. -/
def frame_row (f : Frame) (i : Nat) : Series :=
  ⟨f.columns, f.data.getD i []⟩

/-- Models `_NDFrameIndexer._getitem_axis` for a scalar key on axis 0 of a
2-D object (non-hierarchical): an integer key on a non-integer-labeled
axis reads the row at that position (`_get_loc` → `_ixs`), otherwise the
row at the label's position (`_get_label` → `_xs`). -/
def frame_getitem_axis0 (f : Frame) (key : Label) : Except Unit Series :=
  match key with
  | .int n =>
      if !(isIntegerIndex f.index) then
        let len : Int := f.index.length
        let i := if n < 0 then n + len else n
        if 0 ≤ i ∧ i < len then .ok (frame_row f i.toNat) else .error ()
      else
        match getLoc f.index (.int n) with
        | some i => .ok (frame_row f i)
        | none => .error ()
  | k =>
      match getLoc f.index k with
      | some i => .ok (frame_row f i)
      | none => .error ()

/-- Result of an `ix` read with a tuple key on a 2-D object: a scalar
cell, a 1-D series, or a raised error. -/
inductive IxResult
  | scalar (c : Cell)
  | series (s : Series)
  | failed
deriving DecidableEq, Repr

/-- Models `_NDFrameIndexer.__getitem__` for a two-scalar tuple key on a
2-D object: first `self.obj.get_value(*key)` is tried (label lookup on
both axes); on failure `_getitem_tuple` → `_getitem_lowerdim` resolves
axis 0 with `_getitem_axis`, and since the section is one-dimensional
(`section.ndim != self.ndim`), the remaining single key is applied to the
section (`section.ix[new_key]` with scalar-key semantics), whose scalar
result is returned directly. -/
def ix_frame_getitem2 (f : Frame) (k0 k1 : Label) : IxResult :=
  match frame_get_value f k0 k1 with
  | some c => .scalar c
  | none =>
      match frame_getitem_axis0 f k0 with
      | .ok s =>
          match getitem_axis_scalar s k1 with
          | .ok c => .scalar c
          | _ => .failed
      | .error _ => .failed

/-- A resolved per-axis setter indexer component as `_maybe_convert_ix`
classifies it: a list of positions (`np.ndarray`/`list`/`Series`) or
anything else (here a scalar position). -/
inductive CIdx
  | list (ns : List Nat)
  | scalar (n : Nat)
deriving DecidableEq, Repr

/-- Models `_maybe_convert_ix(*args)` for two components: when every
component is list-like, `np.ix_` builds the open-mesh (cross-product)
indexer; otherwise the components pass through unchanged. -/
def maybe_convert_ix (a b : CIdx) :
    Sum (List Nat × List Nat) (CIdx × CIdx) :=
  match a, b with
  | .list as, .list bs => .inl (as, bs)
  | x, y => .inr (x, y)

/-- Models the storage `setitem` with an `np.ix_` open-mesh indexer and a
scalar value: every cell whose row position is in `rows` and whose column
position is in `cols` receives the value; all other cells are kept. -/
def set_cross (f : Frame) (rows cols : List Nat) (v : Int) : Frame :=
  { f with
    data := f.data.mapIdx (fun i row =>
      row.mapIdx (fun j c =>
        if i ∈ rows ∧ j ∈ cols then some v else c)) }

/-- Models the non-split path of `_NDFrameIndexer._setitem_with_indexer`
(homogeneous 2-D object, no hierarchical axes) for a tuple indexer of two
resolved position lists and a scalar value: `_maybe_convert_ix` converts
the pair to an open mesh and the storage `setitem` writes the value at the
cross product. -/
def ix_setitem_lists (f : Frame) (rows cols : List Nat) (v : Int) : Frame :=
  match maybe_convert_ix (.list rows) (.list cols) with
  | .inl (rs, cs) => set_cross f rs cs v
  | .inr _ => f

/-! Helper lemmas about `getLoc` and inferred kinds. -/

theorem getLoc_eq_none_iff (ls : List Label) (k : Label) :
    getLoc ls k = none ↔ k ∉ ls := by
  induction ls with
  | nil => simp [getLoc]
  | cons x xs ih =>
      by_cases h : x = k
      · subst h; simp [getLoc]
      · simp [getLoc, h, Option.map_eq_none', ih]
        intro hk; exact fun he => h he.symm

theorem getLoc_isSome_of_mem (ls : List Label) (k : Label) (h : k ∈ ls) :
    (getLoc ls k).isSome = true := by
  cases hg : getLoc ls k with
  | none => exact absurd ((getLoc_eq_none_iff ls k).mp hg) (by simp [h])
  | some i => rfl

theorem getLoc_lt_length (ls : List Label) (k : Label) (i : Nat)
    (h : getLoc ls k = some i) : i < ls.length := by
  induction ls generalizing i with
  | nil => simp [getLoc] at h
  | cons x xs ih =>
      by_cases hx : x = k
      · simp [getLoc, hx] at h
        simp [← h]
      · simp [getLoc, hx] at h
        obtain ⟨i', hi', rfl⟩ := h
        have := ih i' hi'
        simp
        omega

theorem getLoc_append_of_not_mem (xs ys : List Label) (k : Label)
    (h : k ∉ ys) : getLoc (xs ++ ys) k = getLoc xs k := by
  induction xs with
  | nil => simpa [getLoc] using (getLoc_eq_none_iff ys k).mpr h
  | cons x xs ih => simp [getLoc, ih]

theorem isIntegerIndex_false_of_no_ints (ls : List Label) (h0 : ls ≠ [])
    (h : ∀ l ∈ ls, l.isInt = false) : isIntegerIndex ls = false := by
  have he : ls.isEmpty = false := by
    cases ls with
    | nil => exact absurd rfl h0
    | cons x xs => rfl
  have ha : ls.all Label.isInt = false := by
    cases ls with
    | nil => exact absurd rfl h0
    | cons x xs => simp [List.all_cons, h x (by simp)]
  simp only [isIntegerIndex, inferredType, he, ha, Bool.false_eq_true,
    if_false, decide_eq_false_iff_not]
  split
  · simp
  · split <;> simp

theorem int_not_mem_of_no_ints (ls : List Label) (n : Int)
    (h : ∀ l ∈ ls, l.isInt = false) : Label.int n ∉ ls := by
  intro hmem
  have := h _ hmem
  simp [Label.isInt] at this

/-! Claim theorems. -/

/-- C1: under the legacy-mixed (`ix`) read policy, a scalar integer key on
an axis whose inferred kind is not integer is interpreted as a position,
while on an integer-labeled axis the label interpretation is preferred:
on the axis `[10, 20, 30]` a read of key `1` fails with `KeyNotFound`
even though position `1` exists. -/
theorem c1_legacy_mixed_integer_scalar_resolution :
    (∀ (s : Series) (n : Int), isIntegerIndex s.index = false →
      getitem_axis_scalar s (.int n) = series_get_loc_pos s n)
    ∧ (∀ (s : Series) (n : Int), isIntegerIndex s.index = true →
      getitem_axis_scalar s (.int n) = series_get_label s (.int n))
    ∧ getitem_axis_scalar
        ⟨[.int 10, .int 20, .int 30], [some 100, some 200, some 300]⟩
        (.int 1) = .keyNotFound := by
  refine ⟨?_, ?_, by decide⟩
  · intro s n h
    simp [getitem_axis_scalar, h]
  · intro s n h
    simp [getitem_axis_scalar, h]

/-- Witness for C1: on a string-labeled axis the integer key `1` resolves
positionally. -/
theorem c1_witness :
    getitem_axis_scalar ⟨[.str "a", .str "b"], [some 7, some 8]⟩ (.int 1)
      = series_get_loc_pos ⟨[.str "a", .str "b"], [some 7, some 8]⟩ 1 :=
  c1_legacy_mixed_integer_scalar_resolution.1
    ⟨[.str "a", .str "b"], [some 7, some 8]⟩ 1 (by decide)

/-- C3: a non-list scalar key whose label lookup fails resolves to a
raised `KeyError` in read mode and to the missing-key sentinel carrying
the original key in write (setter) mode; `_convert_missing_indexer`
unpacks that sentinel with the enlargement flag set. -/
theorem c3_missing_scalar_read_write (labels : List Label) (key : Label)
    (hmiss : getLoc labels key = none)
    (hpath : key.isInt = false ∨ isIntegerIndex labels = true) :
    convert_to_indexer_scalar labels key false = .keyError
    ∧ convert_to_indexer_scalar labels key true = .missing key
    ∧ convert_missing_indexer (.missing key) = (.missing key, true) := by
  have hguard : (key.isInt && !(isIntegerIndex labels)) = false := by
    rcases hpath with h | h <;> simp [h]
  refine ⟨?_, ?_, rfl⟩ <;>
    simp [convert_to_indexer_scalar, hguard, hmiss]

/-- Witness for C3: the absent key `"z"` on the axis `["a"]`. -/
theorem c3_witness :
    convert_to_indexer_scalar [.str "a"] (.str "z") false = .keyError
    ∧ convert_to_indexer_scalar [.str "a"] (.str "z") true
        = .missing (.str "z")
    ∧ convert_missing_indexer (.missing (.str "z"))
        = (.missing (.str "z"), true) :=
  c3_missing_scalar_read_write [.str "a"] (.str "z") (by decide)
    (Or.inl (by decide))

/-- C4: writing a new label `k` absent from an axis of length `n` under
the enlargement-permitting `ix` policy appends `k` at the end — the new
axis has length `n + 1`, contains `k` exactly once, and every
pre-existing position keeps its original label and value. -/
theorem c4_enlargement_appends_exactly_once (s : Series) (k : Label)
    (v : Int) (hmiss : getLoc s.index k = none)
    (hpath : k.isInt = false ∨ isIntegerIndex s.index = true) :
    (setitem_series s k v).index = s.index ++ [k]
    ∧ (setitem_series s k v).values = s.values ++ [some v]
    ∧ (setitem_series s k v).index.length = s.index.length + 1
    ∧ (setitem_series s k v).index.count k = 1 := by
  have hguard : (k.isInt && !(isIntegerIndex s.index)) = false := by
    rcases hpath with h | h <;> simp [h]
  have hconv : convert_to_indexer_scalar s.index k true = .missing k := by
    simp [convert_to_indexer_scalar, hguard, hmiss]
  have hnotmem : k ∉ s.index := (getLoc_eq_none_iff _ _).mp hmiss
  have hidx : (setitem_series s k v).index = s.index ++ [k] := by
    simp only [setitem_series, hconv]
    split
    · rename_i hlen
      simp [List.length_eq_zero.mp hlen, safe_append_to_index]
    · rfl
  have hvals : (setitem_series s k v).values = s.values ++ [some v] := by
    simp only [setitem_series, hconv]
  refine ⟨hidx, hvals, ?_, ?_⟩
  · simp [hidx]
  · simp [hidx, List.count_append, List.count_eq_zero.mpr hnotmem]

/-- Witness for C4: appending the new label `"c"` to the axis
`["a", "b"]`. -/
theorem c4_witness :
    (setitem_series ⟨[.str "a", .str "b"], [some 1, some 2]⟩ (.str "c")
        9).index = [.str "a", .str "b"] ++ [.str "c"]
    ∧ (setitem_series ⟨[.str "a", .str "b"], [some 1, some 2]⟩ (.str "c")
        9).values = [some 1, some 2] ++ [some 9]
    ∧ (setitem_series ⟨[.str "a", .str "b"], [some 1, some 2]⟩ (.str "c")
        9).index.length = [Label.str "a", Label.str "b"].length + 1
    ∧ (setitem_series ⟨[.str "a", .str "b"], [some 1, some 2]⟩ (.str "c")
        9).index.count (.str "c") = 1 :=
  c4_enlargement_appends_exactly_once
    ⟨[.str "a", .str "b"], [some 1, some 2]⟩ (.str "c") 9 (by decide)
    (Or.inl (by decide))

/-- C5: a write through the position-only (`iloc`) policy whose scalar
position is beyond the axis (so it would require enlargement) raises the
cannot-enlarge error and leaves the target exactly as it was. -/
theorem c5_iloc_write_cannot_enlarge (s : Series) (key : Int) (v : Int)
    (h : (s.index.length : Int) ≤ key) :
    iloc_setitem_scalar s key v = (s, some .cannotEnlarge) := by
  have : has_valid_positional_setitem_scalar s.index.length key = false := by
    simp [has_valid_positional_setitem_scalar]
    omega
  simp [iloc_setitem_scalar, this]

/-- Witness for C5: position `5` on an axis of length `2`. -/
theorem c5_witness :
    iloc_setitem_scalar ⟨[.str "a", .str "b"], [some 1, some 2]⟩ 5 9
      = (⟨[.str "a", .str "b"], [some 1, some 2]⟩, some .cannotEnlarge) :=
  c5_iloc_write_cannot_enlarge ⟨[.str "a", .str "b"], [some 1, some 2]⟩
    5 9 (by decide)

theorem align_series_frame_scalar_scalar (f : Frame) (i j : Nat)
    (serIdx : List Label) (serVals : List Cell) :
    align_series_frame f (.scalar i) (.scalar j) serIdx serVals = none := by
  simp [align_series_frame, IdxComp.isSeqOrSlice, IdxComp.isNull]

/-- C2 counterexample: on the 1×1 frame with row label `"a"`, assigning
the series `{"A": 5}` at the tuple key (missing row label `"b"`, column
position `0`) raises the incompatible-series error *after* axis 0 has
been enlarged in place: the observable state differs from the original —
it carries the half-enlarged axis `["a", "b"]` and a `NaN` row. -/
theorem c2_counterexample :
    (setitem_frame_tuple ⟨[.str "a"], [.str "A"], [[some 1]]⟩
        (.missing (.str "b")) 0 (.series [.str "A"] [some 5])).2
      = some .incompatibleSeries
    ∧ (setitem_frame_tuple ⟨[.str "a"], [.str "A"], [[some 1]]⟩
        (.missing (.str "b")) 0 (.series [.str "A"] [some 5])).1
      ≠ ⟨[.str "a"], [.str "A"], [[some 1]]⟩
    ∧ (setitem_frame_tuple ⟨[.str "a"], [.str "A"], [[some 1]]⟩
        (.missing (.str "b")) 0 (.series [.str "A"] [some 5])).1.index
      = [.str "a", .str "b"] := by decide

/-- C2 (amended): failure atomicity does not hold on the tuple-key
enlargement path.  When the axis-0 component of a setter tuple is a
missing key, `_setitem_with_indexer` reindexes axis 0 in place before
aligning the value; if alignment then fails (a series value against an
all-scalar indexer), the call raises with the enlarged, `NaN`-filled axis
left observable — the post-state is exactly `enlarge_axis0`, one label
longer.  A scalar value on the same path completes without error. -/
theorem c2_amended_enlargement_not_rolled_back :
    (∀ (f : Frame) (k : Label) (j : Nat) (serIdx : List Label)
        (serVals : List Cell),
      setitem_frame_tuple f (.missing k) j (.series serIdx serVals)
        = (enlarge_axis0 f k, some .incompatibleSeries))
    ∧ (∀ (f : Frame) (k : Label) (j : Nat) (serIdx : List Label)
        (serVals : List Cell),
      (setitem_frame_tuple f (.missing k) j
          (.series serIdx serVals)).1.index.length = f.index.length + 1)
    ∧ (∀ (f : Frame) (k : Label) (j : Nat) (v : Int),
      (setitem_frame_tuple f (.missing k) j (.scalar v)).2 = none) := by
  have hmain : ∀ (f : Frame) (k : Label) (j : Nat) (serIdx : List Label)
      (serVals : List Cell),
      setitem_frame_tuple f (.missing k) j (.series serIdx serVals)
        = (enlarge_axis0 f k, some .incompatibleSeries) := by
    intro f k j serIdx serVals
    simp [setitem_frame_tuple, align_series_frame_scalar_scalar]
  refine ⟨hmain, ?_, ?_⟩
  · intro f k j serIdx serVals
    simp [hmain, enlarge_axis0, safe_append_to_index]
  · intro f k j v
    simp [setitem_frame_tuple]

/-- C6: aligning a labeled 1-D value onto a one-axis position-list
selection uses the value's data unchanged when its labels equal the
target labels in order, and otherwise reindexes it onto the target labels
(a left join of target onto value): a target label absent from the value
receives the missing fill, a target label present takes the value at its
matching position, and value entries whose labels are outside the target
leave the result untouched. -/
theorem c6_align_series_left_join (f : Frame) (ns : List Nat)
    (c1 : IdxComp) (serIdx : List Label) (serVals : List Cell) :
    (serIdx = axTake f.index (.list ns) →
      align_series_frame f (.list ns) c1 serIdx serVals = some serVals)
    ∧ (serIdx ≠ axTake f.index (.list ns) →
      align_series_frame f (.list ns) c1 serIdx serVals
        = some (reindexSer (axTake f.index (.list ns)) serIdx serVals))
    ∧ (∀ (j : Nat) (t : Label),
        (axTake f.index (.list ns))[j]? = some t → t ∉ serIdx →
        (reindexSer (axTake f.index (.list ns)) serIdx serVals)[j]?
          = some none)
    ∧ (∀ (j : Nat) (t : Label) (i : Nat),
        (axTake f.index (.list ns))[j]? = some t →
        getLoc serIdx t = some i →
        (reindexSer (axTake f.index (.list ns)) serIdx serVals)[j]?
          = some (serVals.getD i none))
    ∧ (∀ (extra : List Label) (extraVals : List Cell),
        (∀ l ∈ extra, l ∉ axTake f.index (.list ns)) →
        serIdx.length = serVals.length →
        reindexSer (axTake f.index (.list ns)) (serIdx ++ extra)
            (serVals ++ extraVals)
          = reindexSer (axTake f.index (.list ns)) serIdx serVals) := by
  refine ⟨?_, ?_, ?_, ?_, ?_⟩
  · intro h
    simp [align_series_frame, IdxComp.isSeqOrSlice, IdxComp.isNull,
      alignToAxis, h]
  · intro h
    simp [align_series_frame, IdxComp.isSeqOrSlice, IdxComp.isNull,
      alignToAxis, h]
  · intro j t hj ht
    simp [reindexSer, List.getElem?_map, hj,
      (getLoc_eq_none_iff serIdx t).mpr ht]
  · intro j t i hj hi
    simp [reindexSer, List.getElem?_map, hj, hi]
  · intro extra extraVals hdisj hlen
    refine List.map_congr_left ?_
    intro t ht
    have hnm : t ∉ extra := fun hmem => hdisj t hmem ht
    rw [getLoc_append_of_not_mem serIdx extra t hnm]
    cases hg : getLoc serIdx t with
    | none => rfl
    | some i =>
        have hlt : i < serVals.length :=
          hlen ▸ getLoc_lt_length serIdx t i hg
        simp [List.getElem?_append, hlt]

/-- Witness for C6: target labels `["a", "c"]`; the equal-labels value
passes through unchanged, and a value `{"c": 30, "z": 99}` reindexes to
`[NaN, 30]` — `"a"` takes the fill and the entry `"z"` is discarded. -/
theorem c6_witness :
    align_series_frame
        ⟨[.str "a", .str "b", .str "c"], [.str "A"],
          [[some 1], [some 2], [some 3]]⟩
        (.list [0, 2]) (.scalar 0) [.str "a", .str "c"] [some 10, some 30]
      = some [some 10, some 30]
    ∧ align_series_frame
        ⟨[.str "a", .str "b", .str "c"], [.str "A"],
          [[some 1], [some 2], [some 3]]⟩
        (.list [0, 2]) (.scalar 0) [.str "c", .str "z"] [some 30, some 99]
      = some (reindexSer
          (axTake [.str "a", .str "b", .str "c"] (.list [0, 2]))
          [.str "c", .str "z"] [some 30, some 99]) :=
  ⟨(c6_align_series_left_join
      ⟨[.str "a", .str "b", .str "c"], [.str "A"],
        [[some 1], [some 2], [some 3]]⟩
      [0, 2] (.scalar 0) [.str "a", .str "c"] [some 10, some 30]).1
      (by decide),
   (c6_align_series_left_join
      ⟨[.str "a", .str "b", .str "c"], [.str "A"],
        [[some 1], [some 2], [some 3]]⟩
      [0, 2] (.scalar 0) [.str "c", .str "z"] [some 30, some 99]).2.1
      (by decide)⟩

/-- C7 counterexample: on an axis of length 3, the position slice
`0:100` under the position-only (`iloc`) policy is *not* silently clamped
to `[0, 1, 2]` — the slice-bounds check run by `raise_on_error=True`
raises an out-of-bounds error on the stop bound. -/
theorem c7_counterexample :
    iloc_get_slice_axis 3 (some 0) (some 100)
        = .error .outOfBoundsSliceEnd
    ∧ iloc_get_slice_axis 3 (some 0) (some 100) ≠ .ok [0, 1, 2] := by
  refine ⟨rfl, ?_⟩
  intro h
  rw [show iloc_get_slice_axis 3 (some 0) (some 100)
        = .error .outOfBoundsSliceEnd from rfl] at h
  exact Except.noConfusion h

/-- C7 (amended): a step-1 position slice `(s, e)` under the
position-only policy yields exactly the positions `s, s+1, …, e-1` with
the stop endpoint exclusive when the bounds lie within the axis (start at
most `l-1`, stop at most `l`); bounds beyond the axis are a hard
out-of-bounds error (via `_check_slice_bounds`, which
`raise_on_error=True` enables), not a silent clamp. -/
theorem c7_amended_slice_exclusive_and_bounds_checked :
    (∀ (l s e : Nat), s + 1 ≤ l → e ≤ l →
      iloc_get_slice_axis l (some (s : Int)) (some (e : Int))
        = .ok (List.range' s (e - s)))
    ∧ (∀ (l s e : Nat), l < e →
      ∃ err, iloc_get_slice_axis l (some (s : Int)) (some (e : Int))
        = .error err) := by
  constructor
  · intro l s e hs he
    have hb : check_slice_bounds l (some (s : Int)) (some (e : Int))
        = none := by
      simp only [check_slice_bounds]
      have h1 : ¬((s : Int) < -(l : Int) || (s : Int) > (l : Int) - 1) := by
        simp; constructor <;> omega
      have h2 : ¬((e : Int) < -(l : Int) - 1 || (e : Int) > (l : Int)) := by
        simp; constructor <;> omega
      simp only [eq_false h1, eq_false h2]
      simp
    have hst : py_slice_bound l (s : Int) = s := by
      simp only [py_slice_bound]
      have : ¬((s : Int) < 0) := by omega
      simp [this]
      omega
    have hsp : py_slice_bound l (e : Int) = e := by
      simp only [py_slice_bound]
      have : ¬((e : Int) < 0) := by omega
      simp [this]
      omega
    simp [iloc_get_slice_axis, hb, take_slice, hst, hsp]
  · intro l s e he
    have hne : check_slice_bounds l (some (s : Int)) (some (e : Int))
        ≠ none := by
      simp only [check_slice_bounds]
      intro hb
      split at hb
      · exact Option.noConfusion hb
      · split at hb
        · exact Option.noConfusion hb
        · rename_i hstop
          simp at hstop
          omega
    obtain ⟨err, herr⟩ := Option.ne_none_iff_exists'.mp hne
    exact ⟨err, by simp [iloc_get_slice_axis, herr]⟩

/-- Witness for C7 (amended): the slice `1:3` on an axis of length 3
resolves to the positions `[1, 2]`. -/
theorem c7_witness :
    iloc_get_slice_axis 3 (some (1 : Nat)) (some (3 : Nat))
      = .ok (List.range' 1 (3 - 1)) :=
  c7_amended_slice_exclusive_and_bounds_checked.1 3 1 3 (by decide)
    (by decide)

/-- C8: a slice with integer-valued bounds over an axis of mixed inferred
kind first attempts a label lookup of every present bound; when all
lookups succeed label semantics are forced for the whole slice
(`labels.slice_indexer`), and when a lookup fails the slice falls back to
position semantics. -/
theorem c8_mixed_slice_tie_break (ls : List Label) (s e : Option Label)
    (hmix : kindHasMixed (inferredType ls) = true)
    (hint : is_index_slice s e = true) :
    ((boundFound ls s && boundFound ls e) = true →
      convert_slice ls s e = .labelBased s e)
    ∧ ((boundFound ls s && boundFound ls e) = false →
      convert_slice ls s e = .positional s e) := by
  have hnotint : (inferredType ls = IKind.integer : Bool) = false := by
    cases hk : inferredType ls <;> simp_all [kindHasMixed]
  have hnull : (s = none && e = none) = false := by
    simp only [is_index_slice] at hint
    cases hs : (decide (s = none) && decide (e = none)) with
    | false => rfl
    | true => rw [hs] at hint; simp at hint
  constructor
  · intro hfound
    simp [convert_slice, hnotint, hint, hmix, hnull, hfound]
  · intro hfound
    simp [convert_slice, hnotint, hint, hmix, hnull, hfound]

/-- Witness for C8: on the mixed-kind axis `[5, "a"]`, the slice bound
`5` resolves as a label, forcing label semantics; the absent bound `7`
falls back to position semantics. -/
theorem c8_witness :
    convert_slice [.int 5, .str "a"] (some (.int 5)) none
        = .labelBased (some (.int 5)) none
    ∧ convert_slice [.int 5, .str "a"] (some (.int 7)) none
        = .positional (some (.int 7)) none :=
  ⟨(c8_mixed_slice_tie_break [.int 5, .str "a"] (some (.int 5)) none
      (by decide) (by decide)).1 (by decide),
   (c8_mixed_slice_tie_break [.int 5, .str "a"] (some (.int 7)) none
      (by decide) (by decide)).2 (by decide)⟩

/-- C9: a tuple key over a 2-axis object whose first entry resolves axis
0 to a single scalar position (an integer on an axis with no integer
labels) and whose second entry resolves axis 1 to a single column label
lowers to the single scalar cell value at that position and label — not
to a 1-element series. -/
theorem c9_tuple_lowering_to_scalar (f : Frame) (n j : Nat) (k1 : Label)
    (hnoint : ∀ l ∈ f.index, l.isInt = false)
    (hn : n < f.index.length)
    (hcol : getLoc f.columns k1 = some j)
    (hk1 : k1.isInt = false ∨ isIntegerIndex f.columns = true) :
    ix_frame_getitem2 f (.int n) k1 = .scalar (f.cell n j) := by
  have hne : f.index ≠ [] := by
    intro h
    rw [h] at hn
    simp at hn
  have hmiss : getLoc f.index (.int (n : Int)) = none :=
    (getLoc_eq_none_iff _ _).mpr (int_not_mem_of_no_ints _ _ hnoint)
  have hnotint : isIntegerIndex f.index = false :=
    isIntegerIndex_false_of_no_ints f.index hne hnoint
  have hgv : frame_get_value f (.int (n : Int)) k1 = none := by
    simp [frame_get_value, hmiss]
  have hrange : 0 ≤ (n : Int) ∧ (n : Int) < (f.index.length : Int) := by
    constructor <;> omega
  have hax0 : frame_getitem_axis0 f (.int (n : Int))
      = .ok (frame_row f n) := by
    simp only [frame_getitem_axis0, hnotint, Bool.not_false, if_true]
    rw [if_neg (by omega : ¬((n : Int) < 0))]
    rw [if_pos hrange]
    simp
  have hrowread : getitem_axis_scalar (frame_row f n) k1
      = .ok ((f.data.getD n []).getD j none) := by
    have hlab : series_get_label (frame_row f n) k1
        = .ok ((f.data.getD n []).getD j none) := by
      simp [series_get_label, frame_row, hcol]
    cases k1 with
    | int m =>
        rcases hk1 with h | h
        · simp [Label.isInt] at h
        · simp only [getitem_axis_scalar, frame_row] at *
          rw [show isIntegerIndex f.columns = true from h]
          simpa [frame_row] using hlab
    | str t => simpa [getitem_axis_scalar] using hlab
    | other t => simpa [getitem_axis_scalar] using hlab
  simp [ix_frame_getitem2, hgv, hax0, hrowread, Frame.cell]

/-- Witness for C9: on a 2×2 frame with string row labels, the tuple key
`(1, "B")` reads the single scalar cell at position 1, column `"B"`. -/
theorem c9_witness :
    ix_frame_getitem2
        ⟨[.str "r0", .str "r1"], [.str "A", .str "B"],
          [[some 1, some 2], [some 3, some 4]]⟩ (.int 1) (.str "B")
      = .scalar (Frame.cell
          ⟨[.str "r0", .str "r1"], [.str "A", .str "B"],
            [[some 1, some 2], [some 3, some 4]]⟩ 1 1) :=
  c9_tuple_lowering_to_scalar
    ⟨[.str "r0", .str "r1"], [.str "A", .str "B"],
      [[some 1, some 2], [some 3, some 4]]⟩ 1 1 (.str "B")
    (by decide) (by decide) (by decide) (Or.inl (by decide))

/-- C10: an `ix` assignment whose resolved tuple indexer has a position
list in every axis slot writes the value at the Cartesian product of the
per-axis lists (`np.ix_` open mesh): a cell receives the value exactly
when its row position is in the row list *and* its column position is in
the column list (not only at pairwise-zipped positions), and the shape of
the data is unchanged. -/
theorem c10_cross_product_write :
    (∀ (f : Frame) (rows cols : List Nat) (v : Int) (i j : Nat),
      i < f.data.length → j < (f.data.getD i []).length →
      (ix_setitem_lists f rows cols v).cell i j
        = if i ∈ rows ∧ j ∈ cols then some v else f.cell i j)
    ∧ (∀ (f : Frame) (rows cols : List Nat) (v : Int),
      (ix_setitem_lists f rows cols v).data.length = f.data.length) := by
  have hset : ∀ (f : Frame) (rows cols : List Nat) (v : Int),
      ix_setitem_lists f rows cols v = set_cross f rows cols v := by
    intro f rows cols v
    simp [ix_setitem_lists, maybe_convert_ix]
  constructor
  · intro f rows cols v i j hi hj
    rw [hset]
    have hrow : f.data.getD i [] = f.data[i] := List.getD_eq_getElem _ _ hi
    have hj' : j < f.data[i].length := by rw [← hrow]; exact hj
    simp only [set_cross, Frame.cell]
    rw [List.getD_eq_getElem _ _
      (by simpa using hi : i < (f.data.mapIdx _).length)]
    rw [List.getElem_mapIdx]
    rw [List.getD_eq_getElem _ _
      (by simpa using hj' : j < (f.data[i].mapIdx _).length)]
    rw [List.getElem_mapIdx]
    rw [hrow, List.getD_eq_getElem _ _ hj']
  · intro f rows cols v
    rw [hset]
    simp [set_cross]

/-- Witness for C10: with row list `[0, 1]` and column list `[0, 1]` on a
2×2 frame, the off-diagonal cell `(0, 1)` — which pairwise zipping would
skip — receives the value. -/
theorem c10_witness :
    (ix_setitem_lists
        ⟨[.str "r0", .str "r1"], [.str "A", .str "B"],
          [[some 1, some 2], [some 3, some 4]]⟩ [0, 1] [0, 1] 9).cell 0 1
      = if 0 ∈ [0, 1] ∧ 1 ∈ [0, 1] then some 9
        else Frame.cell
          ⟨[.str "r0", .str "r1"], [.str "A", .str "B"],
            [[some 1, some 2], [some 3, some 4]]⟩ 0 1 :=
  c10_cross_product_write.1
    ⟨[.str "r0", .str "r1"], [.str "A", .str "B"],
      [[some 1, some 2], [some 3, some 4]]⟩ [0, 1] [0, 1] 9 0 1
    (by decide) (by decide)

end PandasIndexing
